import Mathlib

/-!
Shallow embedding of the line-oriented text editor (src/editor.h, src/main.c).

Data model:
* a line is a `List Char` — the bytes of the C line without its NUL terminator
  (the C code keeps `line_len[i] = strlen(lines[i])` in sync everywhere);
* the buffer is a `List Line`, so `num_lines = buffer.length`;
* the cursor fields `cx`, `cy`, `rowoff`, `coloff` are C `int`s that the
  arrow-key handlers may drive negative, so they are embedded as `Int`.

Every editing operation is embedded as `Editor → Option Editor`: the C code
performs unchecked pointer arithmetic, and an access outside the allocated
line array or line bytes (undefined behaviour in the source) is modelled as
`none`.  The guards of each definition are exactly the definedness
conditions of the memory accesses the source performs on that path.
The ncurses globals `LINES`/`COLS` become explicit `rows`/`cols` arguments.
Allocation details (`capacity`, `buffer_ensure_capacity`, `realloc`) have no
observable effect on content and are not part of the model.
-/

namespace TextEditor

/-- One text line: the bytes stored before the NUL terminator. -/
abbrev Line := List Char

/-- Cursor state (src/editor.h:49-52): absolute position `cx`/`cy` and
viewport scroll offsets `rowoff`/`coloff`, all C `int`s. -/
structure Cursor where
  cx : Int
  cy : Int
  rowoff : Int
  coloff : Int
deriving Repr, DecidableEq

/-- Editor state (src/editor.h:30-35, 64-68): the line buffer and the cursor.
`num_lines` is `buffer.length`; `line_len i` is `(buffer.getD i []).length`. -/
structure Editor where
  buffer : List Line
  cursor : Cursor
deriving Repr, DecidableEq

/-- `line[strcspn(line, "\n")] = '\0'` (src/main.c:261): truncate a raw line
at its first newline. -/
def stripNL (l : Line) : Line := l.takeWhile (fun ch => ch ≠ '\n')

/-- `load_file` (src/main.c:242-279), successful path: one buffer line per
raw input line with the trailing newline stripped; an empty file yields a
single empty line; cursor and scroll offsets reset to zero. -/
def load_file (xs : List Line) : Editor :=
  let ls := xs.map stripNL
  { buffer := if ls.isEmpty then [[]] else ls
    cursor := ⟨0, 0, 0, 0⟩ }

/-- The sequence of lines `save_buffer` (src/main.c:35-55) writes out, in
order (each is followed on disk by one `'\n'`). -/
def serialize (ed : Editor) : List Line := ed.buffer

/-- The exact byte stream `save_buffer` produces: every line followed by a
newline, including the last. -/
def save_buffer (ed : Editor) : Line :=
  (ed.buffer.map (fun l => l ++ ['\n'])).flatten

/-- `insert_char` (src/main.c:127-140): insert `ch` into `lines[cy]` at
column `cx`, shifting the tail right, and advance `cx` by one.  The
`memmove` of `line_len - cx + 1` bytes from `&line[cx]` is defined only for
`0 ≤ cy < num_lines` and `0 ≤ cx ≤ line_len[cy]` (a negative `cx`, or
`cx > line_len`, wraps the `size_t` count: undefined behaviour → `none`). -/
def insert_char (ed : Editor) (ch : Char) : Option Editor :=
  let c := ed.cursor
  let buf := ed.buffer
  if 0 ≤ c.cy ∧ c.cy < (buf.length : Int) then
    let row := c.cy.toNat
    let line := buf.getD row []
    if 0 ≤ c.cx ∧ c.cx ≤ (line.length : Int) then
      let col := c.cx.toNat
      some { buffer := buf.set row (line.take col ++ ch :: line.drop col)
             cursor := { c with cx := c.cx + 1 } }
    else none
  else none

/-- `backspace` (src/main.c:142-177).  `cx > 0`: drop the byte at `cx - 1`
(the `memmove` needs `0 ≤ cy < num_lines` and `cx ≤ line_len[cy]`).
Otherwise, at `cy == 0` the function returns unchanged; for `cy ≠ 0` it
appends `lines[cy]` to `lines[cy-1]`, deletes line `cy` (`delete_line`,
src/main.c:57-66), and moves the cursor to `(cy-1, old length of cy-1)` —
defined only for `0 < cy < num_lines`. -/
def backspace (ed : Editor) : Option Editor :=
  let c := ed.cursor
  let buf := ed.buffer
  if 0 < c.cx then
    if 0 ≤ c.cy ∧ c.cy < (buf.length : Int) then
      let row := c.cy.toNat
      let line := buf.getD row []
      if c.cx ≤ (line.length : Int) then
        let col := c.cx.toNat
        some { buffer := buf.set row (line.take (col - 1) ++ line.drop col)
               cursor := { c with cx := c.cx - 1 } }
      else none
    else none
  else if c.cy = 0 then
    some ed
  else if 0 < c.cy ∧ c.cy < (buf.length : Int) then
    let row := c.cy.toNat
    let prev := buf.getD (row - 1) []
    let cur := buf.getD row []
    some { buffer := (buf.set (row - 1) (prev ++ cur)).eraseIdx row
           cursor := { c with cy := c.cy - 1, cx := (prev.length : Int) } }
  else none

/-- `delete_at_cursor` (src/main.c:179-207).  Reading `line_len[cy]` in the
branch condition already needs `0 ≤ cy < num_lines`.  `cx < line_len`:
remove the byte at `cx` (the `memmove` destination `&lines[cy][cx]` needs
`0 ≤ cx`).  Otherwise, if `cy + 1 ≥ num_lines` the function returns
unchanged; else it appends `lines[cy+1]` to `lines[cy]` and deletes line
`cy+1`.  The cursor is never written. -/
def delete_at_cursor (ed : Editor) : Option Editor :=
  let c := ed.cursor
  let buf := ed.buffer
  if 0 ≤ c.cy ∧ c.cy < (buf.length : Int) then
    let row := c.cy.toNat
    let line := buf.getD row []
    if c.cx < (line.length : Int) then
      if 0 ≤ c.cx then
        let col := c.cx.toNat
        some { ed with buffer := buf.set row (line.take col ++ line.drop (col + 1)) }
      else none
    else if c.cy + 1 ≥ (buf.length : Int) then
      some ed
    else
      let next := buf.getD (row + 1) []
      some { ed with buffer := (buf.set row (line ++ next)).eraseIdx (row + 1) }
  else none

/-- `insert_newline` (src/main.c:209-240): truncate `lines[cy]` at `cx`,
shift lines `cy+1 …` down one slot, store the saved tail
(`strdup(&line[cx])`) as the new line `cy+1`, and move the cursor to
`(cy+1, 0)`.  Defined for `0 ≤ cy < num_lines` and `0 ≤ cx ≤ line_len[cy]`
(`&line[cx]` must point into the allocated bytes). -/
def insert_newline (ed : Editor) : Option Editor :=
  let c := ed.cursor
  let buf := ed.buffer
  if 0 ≤ c.cy ∧ c.cy < (buf.length : Int) then
    let row := c.cy.toNat
    let line := buf.getD row []
    if 0 ≤ c.cx ∧ c.cx ≤ (line.length : Int) then
      let col := c.cx.toNat
      some { buffer := buf.take row ++ [line.take col, line.drop col] ++ buf.drop (row + 1)
             cursor := { c with cy := c.cy + 1, cx := 0 } }
    else none
  else none

/-- `clamp_cursor` (src/main.c:98-125) with the ncurses globals `LINES` and
`COLS` passed as `rows` and `cols`.  The four clamping steps are the
source's four pairs of `if`s, in order; reading `line_len[cy]` after the
vertical clamp needs a non-empty buffer (an empty buffer puts `cy` at `-1`:
undefined behaviour → `none`). -/
def clamp_cursor (ed : Editor) (rows cols : Int) : Option Editor :=
  let buf := ed.buffer
  let n : Int := buf.length
  let cy0 := if ed.cursor.cy < 0 then 0 else ed.cursor.cy
  let cy := if cy0 ≥ n then n - 1 else cy0
  if n = 0 then none
  else
    let len : Int := (buf.getD cy.toNat []).length
    let cx0 := if ed.cursor.cx < 0 then 0 else ed.cursor.cx
    let cx := if cx0 > len then len else cx0
    let ro0 := if cy < ed.cursor.rowoff then cy else ed.cursor.rowoff
    let ro := if cy ≥ ro0 + rows then cy - rows + 1 else ro0
    let co0 := if cx < ed.cursor.coloff then cx else ed.cursor.coloff
    let co := if cx ≥ co0 + cols then cx - cols + 1 else co0
    some { ed with cursor := ⟨cx, cy, ro, co⟩ }

/-- One editing event as dispatched by the main loop (src/main.c:299-343). -/
inductive EditStep where
  | ins (ch : Char)
  | bksp
  | del
  | newline
  | clampWith (rows cols : Int)
deriving Repr, DecidableEq

/-- Apply one editing event to the editor state. -/
def applyStep (ed : Editor) : EditStep → Option Editor
  | .ins ch => insert_char ed ch
  | .bksp => backspace ed
  | .del => delete_at_cursor ed
  | .newline => insert_newline ed
  | .clampWith rows cols => clamp_cursor ed rows cols

/-- Reachability: all states obtained from `start` by any finite sequence of
editing events whose memory accesses are defined. -/
inductive Reach : Editor → Editor → Prop where
  | refl (ed : Editor) : Reach ed ed
  | step {a b c : Editor} (s : EditStep) : Reach a b → applyStep b s = some c → Reach a c

/-! ### Helper lemmas shared by the claim theorems -/

/-- Overwriting slot `i` and then erasing slot `i+1` replaces two adjacent
list entries by one: the merge pattern of `backspace` and
`delete_at_cursor`. -/
theorem set_eraseIdx_succ {α : Type} (l : List α) (i : Nat) (x : α)
    (h : i + 1 < l.length) :
    (l.set i x).eraseIdx (i + 1) = l.take i ++ [x] ++ l.drop (i + 2) := by
  have hi : i < l.length := Nat.lt_of_succ_lt h
  rw [List.set_eq_take_cons_drop x hi]
  have hlen : (l.take i).length = i := by
    simp [List.length_take, Nat.min_eq_left (Nat.le_of_lt hi)]
  rw [List.eraseIdx_append_of_length_le (by omega)]
  have hsub : i + 1 - (l.take i).length = 1 := by omega
  rw [hsub]
  have hdrop : l.drop (i + 1) = l[i + 1] :: l.drop (i + 2) := by
    rw [List.drop_eq_getElem_cons h]
  rw [hdrop]
  simp

/-- Unfolding of `insert_char` on a state whose cursor is valid. -/
theorem insert_char_eq_some (ed : Editor) (ch : Char)
    (hy0 : 0 ≤ ed.cursor.cy) (hy1 : ed.cursor.cy < (ed.buffer.length : Int))
    (hx0 : 0 ≤ ed.cursor.cx)
    (hx1 : ed.cursor.cx ≤ ((ed.buffer.getD ed.cursor.cy.toNat []).length : Int)) :
    insert_char ed ch = some
      { buffer := ed.buffer.set ed.cursor.cy.toNat
          ((ed.buffer.getD ed.cursor.cy.toNat []).take ed.cursor.cx.toNat ++
            ch :: (ed.buffer.getD ed.cursor.cy.toNat []).drop ed.cursor.cx.toNat)
        cursor := { ed.cursor with cx := ed.cursor.cx + 1 } } := by
  simp only [insert_char]
  rw [if_pos ⟨hy0, hy1⟩, if_pos ⟨hx0, hx1⟩]

/-- Unfolding of `backspace`, in-line case (`cx > 0`). -/
theorem backspace_eq_some_del (ed : Editor)
    (hx : 0 < ed.cursor.cx)
    (hy0 : 0 ≤ ed.cursor.cy) (hy1 : ed.cursor.cy < (ed.buffer.length : Int))
    (hx1 : ed.cursor.cx ≤ ((ed.buffer.getD ed.cursor.cy.toNat []).length : Int)) :
    backspace ed = some
      { buffer := ed.buffer.set ed.cursor.cy.toNat
          ((ed.buffer.getD ed.cursor.cy.toNat []).take (ed.cursor.cx.toNat - 1) ++
            (ed.buffer.getD ed.cursor.cy.toNat []).drop ed.cursor.cx.toNat)
        cursor := { ed.cursor with cx := ed.cursor.cx - 1 } } := by
  simp only [backspace]
  rw [if_pos hx, if_pos ⟨hy0, hy1⟩, if_pos hx1]

/-- Unfolding of `backspace`, no-op case (`cx ≤ 0`, `cy = 0`). -/
theorem backspace_eq_some_noop (ed : Editor)
    (hx : ¬ 0 < ed.cursor.cx) (hy : ed.cursor.cy = 0) :
    backspace ed = some ed := by
  simp only [backspace]
  rw [if_neg hx, if_pos hy]

/-- Unfolding of `backspace`, line-merge case (`cx ≤ 0`, `0 < cy`). -/
theorem backspace_eq_some_merge (ed : Editor)
    (hx : ¬ 0 < ed.cursor.cx)
    (hy0 : 0 < ed.cursor.cy) (hy1 : ed.cursor.cy < (ed.buffer.length : Int)) :
    backspace ed = some
      { buffer := (ed.buffer.set (ed.cursor.cy.toNat - 1)
          (ed.buffer.getD (ed.cursor.cy.toNat - 1) [] ++
            ed.buffer.getD ed.cursor.cy.toNat [])).eraseIdx ed.cursor.cy.toNat
        cursor := { ed.cursor with
                    cy := ed.cursor.cy - 1
                    cx := ((ed.buffer.getD (ed.cursor.cy.toNat - 1) []).length : Int) } } := by
  simp only [backspace]
  rw [if_neg hx, if_neg (by omega), if_pos ⟨hy0, hy1⟩]

/-- Unfolding of `delete_at_cursor`, in-line case (`cx < line_len[cy]`). -/
theorem delete_at_cursor_eq_some_del (ed : Editor)
    (hy0 : 0 ≤ ed.cursor.cy) (hy1 : ed.cursor.cy < (ed.buffer.length : Int))
    (hx0 : 0 ≤ ed.cursor.cx)
    (hx1 : ed.cursor.cx < ((ed.buffer.getD ed.cursor.cy.toNat []).length : Int)) :
    delete_at_cursor ed = some
      { buffer := ed.buffer.set ed.cursor.cy.toNat
          ((ed.buffer.getD ed.cursor.cy.toNat []).take ed.cursor.cx.toNat ++
            (ed.buffer.getD ed.cursor.cy.toNat []).drop (ed.cursor.cx.toNat + 1))
        cursor := ed.cursor } := by
  simp only [delete_at_cursor]
  rw [if_pos ⟨hy0, hy1⟩, if_pos hx1, if_pos hx0]

/-- Unfolding of `delete_at_cursor`, no-op case (cursor at or past the end of
the last line). -/
theorem delete_at_cursor_eq_some_noop (ed : Editor)
    (hy0 : 0 ≤ ed.cursor.cy) (hy1 : ed.cursor.cy < (ed.buffer.length : Int))
    (hx1 : ¬ ed.cursor.cx < ((ed.buffer.getD ed.cursor.cy.toNat []).length : Int))
    (hlast : ed.cursor.cy + 1 ≥ (ed.buffer.length : Int)) :
    delete_at_cursor ed = some ed := by
  simp only [delete_at_cursor]
  rw [if_pos ⟨hy0, hy1⟩, if_neg hx1, if_pos hlast]

/-- Unfolding of `delete_at_cursor`, line-merge case (cursor at end of a
non-final line). -/
theorem delete_at_cursor_eq_some_merge (ed : Editor)
    (hy0 : 0 ≤ ed.cursor.cy) (hy1 : ed.cursor.cy < (ed.buffer.length : Int))
    (hx1 : ¬ ed.cursor.cx < ((ed.buffer.getD ed.cursor.cy.toNat []).length : Int))
    (hnext : ¬ ed.cursor.cy + 1 ≥ (ed.buffer.length : Int)) :
    delete_at_cursor ed = some
      { buffer := (ed.buffer.set ed.cursor.cy.toNat
          (ed.buffer.getD ed.cursor.cy.toNat [] ++
            ed.buffer.getD (ed.cursor.cy.toNat + 1) [])).eraseIdx
          (ed.cursor.cy.toNat + 1)
        cursor := ed.cursor } := by
  simp only [delete_at_cursor]
  rw [if_pos ⟨hy0, hy1⟩, if_neg hx1, if_neg hnext]

/-- Unfolding of `insert_newline` on a state whose cursor is valid. -/
theorem insert_newline_eq_some (ed : Editor)
    (hy0 : 0 ≤ ed.cursor.cy) (hy1 : ed.cursor.cy < (ed.buffer.length : Int))
    (hx0 : 0 ≤ ed.cursor.cx)
    (hx1 : ed.cursor.cx ≤ ((ed.buffer.getD ed.cursor.cy.toNat []).length : Int)) :
    insert_newline ed = some
      { buffer := ed.buffer.take ed.cursor.cy.toNat ++
          [(ed.buffer.getD ed.cursor.cy.toNat []).take ed.cursor.cx.toNat,
            (ed.buffer.getD ed.cursor.cy.toNat []).drop ed.cursor.cx.toNat] ++
          ed.buffer.drop (ed.cursor.cy.toNat + 1)
        cursor := { ed.cursor with cy := ed.cursor.cy + 1, cx := 0 } } := by
  simp only [insert_newline]
  rw [if_pos ⟨hy0, hy1⟩, if_pos ⟨hx0, hx1⟩]

set_option maxHeartbeats 2000000 in
/-- On a non-empty buffer `clamp_cursor` succeeds, leaves the buffer alone,
and (for a positive viewport) establishes the cursor and scroll bounds. -/
theorem clamp_cursor_post (ed : Editor) (rows cols : Int)
    (hn : 1 ≤ ed.buffer.length) (hr : 1 ≤ rows) (hc : 1 ≤ cols) :
    ∃ ed', clamp_cursor ed rows cols = some ed' ∧
      ed'.buffer = ed.buffer ∧
      0 ≤ ed'.cursor.cy ∧ ed'.cursor.cy < (ed.buffer.length : Int) ∧
      0 ≤ ed'.cursor.cx ∧
      ed'.cursor.cx ≤ ((ed.buffer.getD ed'.cursor.cy.toNat []).length : Int) ∧
      0 ≤ ed'.cursor.cy - ed'.cursor.rowoff ∧
      ed'.cursor.cy - ed'.cursor.rowoff < rows ∧
      0 ≤ ed'.cursor.cx - ed'.cursor.coloff ∧
      ed'.cursor.cx - ed'.cursor.coloff < cols := by
  obtain ⟨buf, cx, cy, ro, co⟩ := ed
  simp only at hn
  simp only [clamp_cursor]
  rw [if_neg (by omega : ¬ ((buf.length : Int) = 0))]
  refine ⟨_, rfl, rfl, ?_, ?_, ?_, ?_, ?_, ?_, ?_, ?_⟩
  all_goals simp only
  all_goals split_ifs <;> omega

/-- A state already satisfying the clamp postconditions is a fixed point of
`clamp_cursor`. -/
theorem clamp_cursor_fixed (ed : Editor) (rows cols : Int)
    (hy0 : 0 ≤ ed.cursor.cy) (hy1 : ed.cursor.cy < (ed.buffer.length : Int))
    (hx0 : 0 ≤ ed.cursor.cx)
    (hx1 : ed.cursor.cx ≤ ((ed.buffer.getD ed.cursor.cy.toNat []).length : Int))
    (hro0 : 0 ≤ ed.cursor.cy - ed.cursor.rowoff)
    (hro1 : ed.cursor.cy - ed.cursor.rowoff < rows)
    (hco0 : 0 ≤ ed.cursor.cx - ed.cursor.coloff)
    (hco1 : ed.cursor.cx - ed.cursor.coloff < cols) :
    clamp_cursor ed rows cols = some ed := by
  obtain ⟨buf, cx, cy, ro, co⟩ := ed
  simp only [clamp_cursor] at *
  rw [if_neg (by omega : ¬ (cy < 0)), if_neg (by omega : ¬ (cy ≥ (buf.length : Int))),
    if_neg (by omega : ¬ ((buf.length : Int) = 0)),
    if_neg (by omega : ¬ (cx < 0))]
  rw [if_neg (by omega : ¬ (cx > ((buf.getD cy.toNat []).length : Int))),
    if_neg (by omega : ¬ (cy < ro)), if_neg (by omega : ¬ (cy ≥ ro + rows)),
    if_neg (by omega : ¬ (cx < co)), if_neg (by omega : ¬ (cx ≥ co + cols))]


/-- `l.set i (l.getD i d) = l` when `i` is in bounds: writing back the entry
already stored there changes nothing. -/
theorem set_getD_self {α : Type} (l : List α) (i : Nat) (d : α)
    (h : i < l.length) : l.set i (l.getD i d) = l := by
  apply List.ext_getElem?
  intro n
  by_cases hin : i = n
  · subst hin
    rw [List.getElem?_set_self h, List.getD_eq_getElem?_getD,
      List.getElem?_eq_getElem h]
    rfl
  · rw [List.getElem?_set_ne hin]

/-- Claim C7: for every state with a valid cursor, inserting any character
and then backspacing at the advanced column restores the original editor
state exactly (line content, cursor column, and all other lines, cursor row
and scroll offsets included). -/
theorem insert_char_backspace_inverse (ed : Editor) (ch : Char)
    (hy0 : 0 ≤ ed.cursor.cy) (hy1 : ed.cursor.cy < (ed.buffer.length : Int))
    (hx0 : 0 ≤ ed.cursor.cx)
    (hx1 : ed.cursor.cx ≤ ((ed.buffer.getD ed.cursor.cy.toNat []).length : Int)) :
    (insert_char ed ch).bind backspace = some ed := by
  obtain ⟨buf, cx, cy, ro, co⟩ := ed
  simp only at hy0 hy1 hx0 hx1
  rw [insert_char_eq_some _ ch hy0 hy1 hx0 hx1, Option.some_bind]
  simp only
  have hrow : cy.toNat < buf.length := by omega
  have hlen : ((buf.getD cy.toNat []).take cx.toNat).length = cx.toNat := by
    simp only [List.length_take]
    omega
  have hget : ((buf.set cy.toNat ((buf.getD cy.toNat []).take cx.toNat ++
      ch :: (buf.getD cy.toNat []).drop cx.toNat)).getD cy.toNat []) =
      (buf.getD cy.toNat []).take cx.toNat ++ ch :: (buf.getD cy.toNat []).drop cx.toNat := by
    rw [List.getD_eq_getElem?_getD, List.getElem?_set_self (by simpa using hrow)]
    rfl
  rw [backspace_eq_some_del _ (by simp only; omega) (by simpa using hy0)
    (by simp only [List.length_set]; exact hy1)
    (by simp only [hget, List.length_append, List.length_cons]; push_cast; omega)]
  simp only [hget, List.set_set]
  have h1 : (cx + 1).toNat - 1 = cx.toNat := by omega
  have h2 : (cx + 1).toNat = cx.toNat + 1 := by omega
  rw [h1, h2, List.take_left' hlen]
  have h3 : ((buf.getD cy.toNat []).take cx.toNat ++
      ch :: (buf.getD cy.toNat []).drop cx.toNat).drop (cx.toNat + 1) =
      (buf.getD cy.toNat []).drop cx.toNat := by
    have := @List.drop_append _ ((buf.getD cy.toNat []).take cx.toNat)
      (ch :: (buf.getD cy.toNat []).drop cx.toNat) 1
    rw [hlen] at this
    simpa using this
  rw [h3, List.take_append_drop, set_getD_self _ _ _ hrow]
  simp

/-- Claim C10: `insert_char` itself advances the cursor column by exactly
one, leaves the cursor row and both scroll offsets unchanged, and leaves
every line other than `lines[row]` unchanged. -/
theorem insert_char_frame (ed : Editor) (ch : Char)
    (hy0 : 0 ≤ ed.cursor.cy) (hy1 : ed.cursor.cy < (ed.buffer.length : Int))
    (hx0 : 0 ≤ ed.cursor.cx)
    (hx1 : ed.cursor.cx ≤ ((ed.buffer.getD ed.cursor.cy.toNat []).length : Int)) :
    ∃ ed', insert_char ed ch = some ed' ∧
      ed'.cursor.cx = ed.cursor.cx + 1 ∧
      ed'.cursor.cy = ed.cursor.cy ∧
      ed'.cursor.rowoff = ed.cursor.rowoff ∧
      ed'.cursor.coloff = ed.cursor.coloff ∧
      ∀ i : Nat, i ≠ ed.cursor.cy.toNat → ed'.buffer[i]? = ed.buffer[i]? := by
  rw [insert_char_eq_some ed ch hy0 hy1 hx0 hx1]
  exact ⟨_, rfl, rfl, rfl, rfl, rfl,
    fun i hi => List.getElem?_set_ne (fun h => hi h.symm)⟩

/-- Witness for C7 at a concrete state: buffer `["ab"]`, cursor `(0, 1)`,
inserting `'x'` then backspacing restores the state. -/
theorem insert_char_backspace_inverse_witness :
    (insert_char { buffer := [['a', 'b']], cursor := ⟨1, 0, 0, 0⟩ } 'x').bind backspace =
      some { buffer := [['a', 'b']], cursor := ⟨1, 0, 0, 0⟩ } :=
  insert_char_backspace_inverse { buffer := [['a', 'b']], cursor := ⟨1, 0, 0, 0⟩ } 'x'
    (by decide) (by decide) (by decide) (by decide)

/-- Witness for C10 at a concrete state: buffer `["ab", "cd"]`, cursor
`(1, 1)`, inserting `'x'`. -/
theorem insert_char_frame_witness :
    ∃ ed', insert_char { buffer := [['a', 'b'], ['c', 'd']], cursor := ⟨1, 1, 0, 0⟩ } 'x' = some ed' ∧
      ed'.cursor.cx = (1 : Int) + 1 ∧
      ed'.cursor.cy = 1 ∧
      ed'.cursor.rowoff = 0 ∧
      ed'.cursor.coloff = 0 ∧
      ∀ i : Nat, i ≠ (1 : Int).toNat → ed'.buffer[i]? = [['a', 'b'], ['c', 'd']][i]? :=
  insert_char_frame { buffer := [['a', 'b'], ['c', 'd']], cursor := ⟨1, 1, 0, 0⟩ } 'x'
    (by decide) (by decide) (by decide) (by decide)


/-- Claim C4: on a state with a valid cursor, `backspace` removes the
character at `column-1` and moves to `(row, column-1)` when `column > 0`;
appends `lines[row]` onto `lines[row-1]`, removes `lines[row]`, and moves
to `(row-1, old length of lines[row-1])` when `column = 0` and `row > 0`;
and leaves the state unchanged when `column = 0` and `row = 0`. -/
theorem backspace_cases (ed : Editor)
    (hy0 : 0 ≤ ed.cursor.cy) (hy1 : ed.cursor.cy < (ed.buffer.length : Int))
    (hx0 : 0 ≤ ed.cursor.cx)
    (hx1 : ed.cursor.cx ≤ ((ed.buffer.getD ed.cursor.cy.toNat []).length : Int)) :
    (0 < ed.cursor.cx → backspace ed = some
        { buffer := ed.buffer.set ed.cursor.cy.toNat
            ((ed.buffer.getD ed.cursor.cy.toNat []).eraseIdx (ed.cursor.cx.toNat - 1))
          cursor := { ed.cursor with cx := ed.cursor.cx - 1 } }) ∧
    (ed.cursor.cx = 0 → 0 < ed.cursor.cy → backspace ed = some
        { buffer := ed.buffer.take (ed.cursor.cy.toNat - 1) ++
            [ed.buffer.getD (ed.cursor.cy.toNat - 1) [] ++
              ed.buffer.getD ed.cursor.cy.toNat []] ++
            ed.buffer.drop (ed.cursor.cy.toNat + 1)
          cursor := { ed.cursor with
                      cy := ed.cursor.cy - 1
                      cx := ((ed.buffer.getD (ed.cursor.cy.toNat - 1) []).length : Int) } }) ∧
    (ed.cursor.cx = 0 → ed.cursor.cy = 0 → backspace ed = some ed) := by
  obtain ⟨buf, cx, cy, ro, co⟩ := ed
  simp only at hy0 hy1 hx0 hx1 ⊢
  refine ⟨fun hx => ?_, fun hx hy => ?_, fun hx hy => ?_⟩
  · have hline : (buf.getD cy.toNat []).eraseIdx (cx.toNat - 1) =
        (buf.getD cy.toNat []).take (cx.toNat - 1) ++
          (buf.getD cy.toNat []).drop cx.toNat := by
      rw [List.eraseIdx_eq_take_drop_succ]
      have hc : cx.toNat - 1 + 1 = cx.toNat := by omega
      rw [hc]
    rw [backspace_eq_some_del _ hx hy0 hy1 hx1, hline]
  · have hbuf : (buf.set (cy.toNat - 1)
        (buf.getD (cy.toNat - 1) [] ++ buf.getD cy.toNat [])).eraseIdx cy.toNat =
        buf.take (cy.toNat - 1) ++
          [buf.getD (cy.toNat - 1) [] ++ buf.getD cy.toNat []] ++
          buf.drop (cy.toNat + 1) := by
      have h1 : cy.toNat - 1 + 1 = cy.toNat := by omega
      have h2 : cy.toNat - 1 + 1 < buf.length := by omega
      have h3 := set_eraseIdx_succ buf (cy.toNat - 1)
        (buf.getD (cy.toNat - 1) [] ++ buf.getD cy.toNat []) h2
      rw [h1] at h3
      rw [h3]
      have h4 : cy.toNat - 1 + 2 = cy.toNat + 1 := by omega
      rw [h4]
    rw [backspace_eq_some_merge _ (show ¬ (0:Int) < cx by omega) hy hy1, hbuf]
  · rw [backspace_eq_some_noop _ (show ¬ (0:Int) < cx by omega) hy]

/-- Claim C6: on a state with a valid cursor, `delete_at_cursor` removes the
character at `column` in place when `column < length(lines[row])`; appends
`lines[row+1]` onto `lines[row]` and removes `lines[row+1]` when `column`
is at the line end and a next line exists; is a no-op at the end of the
last line; and never moves the cursor. -/
theorem delete_at_cursor_cases (ed : Editor)
    (hy0 : 0 ≤ ed.cursor.cy) (hy1 : ed.cursor.cy < (ed.buffer.length : Int))
    (hx0 : 0 ≤ ed.cursor.cx)
    (hx1 : ed.cursor.cx ≤ ((ed.buffer.getD ed.cursor.cy.toNat []).length : Int)) :
    (ed.cursor.cx < ((ed.buffer.getD ed.cursor.cy.toNat []).length : Int) →
      delete_at_cursor ed = some
        { buffer := ed.buffer.set ed.cursor.cy.toNat
            ((ed.buffer.getD ed.cursor.cy.toNat []).eraseIdx ed.cursor.cx.toNat)
          cursor := ed.cursor }) ∧
    (ed.cursor.cx = ((ed.buffer.getD ed.cursor.cy.toNat []).length : Int) →
      ed.cursor.cy + 1 < (ed.buffer.length : Int) →
      delete_at_cursor ed = some
        { buffer := ed.buffer.take ed.cursor.cy.toNat ++
            [ed.buffer.getD ed.cursor.cy.toNat [] ++
              ed.buffer.getD (ed.cursor.cy.toNat + 1) []] ++
            ed.buffer.drop (ed.cursor.cy.toNat + 2)
          cursor := ed.cursor }) ∧
    (ed.cursor.cx = ((ed.buffer.getD ed.cursor.cy.toNat []).length : Int) →
      ed.cursor.cy + 1 ≥ (ed.buffer.length : Int) →
      delete_at_cursor ed = some ed) ∧
    (∀ ed', delete_at_cursor ed = some ed' → ed'.cursor = ed.cursor) := by
  obtain ⟨buf, cx, cy, ro, co⟩ := ed
  simp only at hy0 hy1 hx0 hx1 ⊢
  refine ⟨fun hlt => ?_, fun heq hnext => ?_, fun heq hlast => ?_, fun ed' h' => ?_⟩
  · rw [delete_at_cursor_eq_some_del _ hy0 hy1 hx0 hlt,
      List.eraseIdx_eq_take_drop_succ]
  · have hbuf : (buf.set cy.toNat
        (buf.getD cy.toNat [] ++ buf.getD (cy.toNat + 1) [])).eraseIdx (cy.toNat + 1) =
        buf.take cy.toNat ++
          [buf.getD cy.toNat [] ++ buf.getD (cy.toNat + 1) []] ++
          buf.drop (cy.toNat + 2) :=
      set_eraseIdx_succ buf cy.toNat _ (by omega)
    rw [delete_at_cursor_eq_some_merge _ hy0 hy1
      (show ¬ cx < ((buf.getD cy.toNat []).length : Int) by omega)
      (show ¬ cy + 1 ≥ (buf.length : Int) by omega), hbuf]
  · rw [delete_at_cursor_eq_some_noop _ hy0 hy1
      (show ¬ cx < ((buf.getD cy.toNat []).length : Int) by omega) hlast]
  · simp only [delete_at_cursor] at h'
    split_ifs at h' <;>
      first
        | exact Option.noConfusion h'
        | (obtain rfl := Option.some_inj.mp h'; rfl)

/-- Witness for C4 at the spec scenario: buffer `["ab", "cd"]`, cursor
`(1, 0)`, Backspace merges to `["abcd"]` with cursor `(0, 2)`. -/
theorem backspace_cases_witness :
    backspace { buffer := [['a', 'b'], ['c', 'd']], cursor := ⟨0, 1, 0, 0⟩ } =
      some { buffer := [['a', 'b', 'c', 'd']], cursor := ⟨2, 0, 0, 0⟩ } :=
  (backspace_cases { buffer := [['a', 'b'], ['c', 'd']], cursor := ⟨0, 1, 0, 0⟩ }
    (by decide) (by decide) (by decide) (by decide)).2.1 (by decide) (by decide)

/-- Witness for C6 at a concrete state: buffer `["ab", "cd"]`, cursor
`(0, 2)` (end of the first line), forward delete merges to `["abcd"]` with
the cursor unmoved. -/
theorem delete_at_cursor_cases_witness :
    delete_at_cursor { buffer := [['a', 'b'], ['c', 'd']], cursor := ⟨2, 0, 0, 0⟩ } =
      some { buffer := [['a', 'b', 'c', 'd']], cursor := ⟨2, 0, 0, 0⟩ } :=
  (delete_at_cursor_cases { buffer := [['a', 'b'], ['c', 'd']], cursor := ⟨2, 0, 0, 0⟩ }
    (by decide) (by decide) (by decide) (by decide)).2.1 (by decide) (by decide)


/-- Claim C5: on a state with a valid cursor, `insert_newline` truncates
`lines[row]` to its first `column` characters, inserts a new line at
`row+1` holding the remainder, preserves all other lines and their order
(the prefix before `row` and the suffix after it, shifted down by one),
increases the line count by one, and puts the cursor at `(row+1, 0)` with
the scroll offsets untouched. -/
theorem insert_newline_splits (ed : Editor)
    (hy0 : 0 ≤ ed.cursor.cy) (hy1 : ed.cursor.cy < (ed.buffer.length : Int))
    (hx0 : 0 ≤ ed.cursor.cx)
    (hx1 : ed.cursor.cx ≤ ((ed.buffer.getD ed.cursor.cy.toNat []).length : Int)) :
    ∃ ed', insert_newline ed = some ed' ∧
      ed'.buffer.length = ed.buffer.length + 1 ∧
      ed'.buffer.take ed.cursor.cy.toNat = ed.buffer.take ed.cursor.cy.toNat ∧
      ed'.buffer.getD ed.cursor.cy.toNat [] =
        (ed.buffer.getD ed.cursor.cy.toNat []).take ed.cursor.cx.toNat ∧
      ed'.buffer.getD (ed.cursor.cy.toNat + 1) [] =
        (ed.buffer.getD ed.cursor.cy.toNat []).drop ed.cursor.cx.toNat ∧
      ed'.buffer.drop (ed.cursor.cy.toNat + 2) =
        ed.buffer.drop (ed.cursor.cy.toNat + 1) ∧
      ed'.cursor.cy = ed.cursor.cy + 1 ∧ ed'.cursor.cx = 0 ∧
      ed'.cursor.rowoff = ed.cursor.rowoff ∧
      ed'.cursor.coloff = ed.cursor.coloff := by
  obtain ⟨buf, cx, cy, ro, co⟩ := ed
  simp only at hy0 hy1 hx0 hx1 ⊢
  rw [insert_newline_eq_some _ hy0 hy1 hx0 hx1]
  simp only
  have htlen : (buf.take cy.toNat).length = cy.toNat := by
    simp only [List.length_take]
    omega
  refine ⟨_, rfl, ?_, ?_, ?_, ?_, ?_, rfl, rfl, rfl, rfl⟩
  · simp only [List.length_append, List.length_cons, List.length_nil,
      List.length_take, List.length_drop]
    omega
  · rw [List.append_assoc, List.take_left' htlen]
  · rw [List.getD_eq_getElem?_getD, List.append_assoc,
      List.getElem?_append_right (le_of_eq htlen), htlen, Nat.sub_self]
    rfl
  · rw [List.getD_eq_getElem?_getD, List.append_assoc,
      List.getElem?_append_right (by omega),
      show cy.toNat + 1 - (buf.take cy.toNat).length = 1 by omega,
      List.getElem?_append_left (by simp)]
    rfl
  · rw [List.append_assoc,
      show cy.toNat + 2 = (buf.take cy.toNat).length + 2 by omega,
      List.drop_append]
    rfl

/-- Claim C3: loading a non-empty sequence of newline-free lines and
serializing returns the very same sequence, and loading the empty sequence
yields the one-element sequence holding the empty line. -/
theorem serialize_load_file_round_trip (X : List Line) (hne : X ≠ [])
    (hnl : ∀ l ∈ X, '\n' ∉ l) :
    serialize (load_file X) = X ∧ serialize (load_file []) = [[]] := by
  constructor
  · have hmap : X.map stripNL = X := by
      have hid : ∀ l ∈ X, stripNL l = id l := by
        intro l hl
        simp only [stripNL, id]
        rw [List.takeWhile_eq_self_iff]
        intro x hx
        exact decide_eq_true (fun heq => hnl l hl (heq ▸ hx))
      rw [List.map_congr_left hid, List.map_id]
    simp only [serialize, load_file]
    rw [hmap, if_neg (by simp [List.isEmpty_iff, hne])]
  · rfl

/-- Witness for C5 at the spec scenario: buffer `["hello", "world"]`,
cursor `(0, 5)`, Enter splits into `["hello", "", "world"]` with cursor
`(1, 0)`. -/
theorem insert_newline_splits_witness :
    ∃ ed', insert_newline
        { buffer := [['h', 'e', 'l', 'l', 'o'], ['w', 'o', 'r', 'l', 'd']], cursor := ⟨5, 0, 0, 0⟩ } =
        some ed' ∧
      ed'.buffer.length = 3 ∧
      ed'.buffer.take 0 = [] ∧
      ed'.buffer.getD 0 [] = ['h', 'e', 'l', 'l', 'o'] ∧
      ed'.buffer.getD 1 [] = [] ∧
      ed'.buffer.drop 2 = [['w', 'o', 'r', 'l', 'd']] ∧
      ed'.cursor.cy = 1 ∧ ed'.cursor.cx = 0 ∧
      ed'.cursor.rowoff = 0 ∧ ed'.cursor.coloff = 0 :=
  insert_newline_splits
    { buffer := [['h', 'e', 'l', 'l', 'o'], ['w', 'o', 'r', 'l', 'd']], cursor := ⟨5, 0, 0, 0⟩ }
    (by decide) (by decide) (by decide) (by decide)

/-- Witness for C3 at a concrete input: `["ab", "c"]` round-trips and the
empty load serializes to `[""]`. -/
theorem serialize_load_file_round_trip_witness :
    serialize (load_file [['a', 'b'], ['c']]) = [['a', 'b'], ['c']] ∧
      serialize (load_file []) = [[]] :=
  serialize_load_file_round_trip [['a', 'b'], ['c']] (by decide) (by decide)


/-- Every editing event that completes (returns `some`) keeps the buffer
non-empty. -/
theorem applyStep_num_lines_pos (ed ed' : Editor) (s : EditStep)
    (hn : 1 ≤ ed.buffer.length) (h : applyStep ed s = some ed') :
    1 ≤ ed'.buffer.length := by
  obtain ⟨buf, cx, cy, ro, co⟩ := ed
  simp only at hn
  cases s with
  | clampWith rows cols =>
    simp only [applyStep, clamp_cursor] at h
    by_cases hc : ((buf.length : Int) = 0)
    · rw [if_pos hc] at h
      exact Option.noConfusion h
    · rw [if_neg hc] at h
      obtain rfl := Option.some_inj.mp h
      simpa using hn
  | ins ch =>
    simp only [applyStep, insert_char] at h
    split_ifs at h
    all_goals
      first
        | exact Option.noConfusion h
        | (obtain rfl := Option.some_inj.mp h
           simp only [List.length_set]
           omega)
  | bksp =>
    simp only [applyStep, backspace] at h
    split_ifs at h <;>
      first
        | exact Option.noConfusion h
        | (obtain rfl := Option.some_inj.mp h
           try simp only [List.length_set, List.length_eraseIdx]
           try split_ifs
           all_goals omega)
  | del =>
    simp only [applyStep, delete_at_cursor] at h
    split_ifs at h <;>
      first
        | exact Option.noConfusion h
        | (obtain rfl := Option.some_inj.mp h
           try simp only [List.length_set, List.length_eraseIdx]
           try split_ifs
           all_goals omega)
  | newline =>
    simp only [applyStep, insert_newline] at h
    split_ifs at h
    all_goals
      first
        | exact Option.noConfusion h
        | (obtain rfl := Option.some_inj.mp h
           simp only [List.length_append, List.length_take, List.length_drop,
             List.length_cons, List.length_nil]
           omega)

/-- A freshly loaded buffer has at least one line. -/
theorem load_file_num_lines_pos (xs : List Line) :
    1 ≤ (load_file xs).buffer.length := by
  simp only [load_file]
  split_ifs with h
  · simp
  · exact List.length_pos.mpr (fun heq => h (List.isEmpty_iff.mpr heq))

/-- Reachability preserves buffer non-emptiness. -/
theorem reach_num_lines_mono (a b : Editor) (h : Reach a b)
    (ha : 1 ≤ a.buffer.length) : 1 ≤ b.buffer.length := by
  induction h with
  | refl => exact ha
  | step s hr hstep ih => exact applyStep_num_lines_pos _ _ s ih hstep

/-- Claim C1: every state reachable from a successfully loaded file by any
sequence of the editing operations (insert_char, backspace,
delete_at_cursor, insert_newline, clamp_cursor) has at least one line in
its buffer. -/
theorem reachable_num_lines_pos (xs : List Line) (ed : Editor)
    (h : Reach (load_file xs) ed) : 1 ≤ ed.buffer.length :=
  reach_num_lines_mono _ _ h (load_file_num_lines_pos xs)

/-- Claim C2: for a non-empty buffer and a viewport of positive height and
width, `clamp_cursor` succeeds and afterwards the cursor row is a valid
line index, the column is between 0 and the current line length, and the
screen-relative position lies inside the viewport. -/
theorem clamp_cursor_bounds (ed : Editor) (rows cols : Int)
    (hn : 1 ≤ ed.buffer.length) (hr : 1 ≤ rows) (hc : 1 ≤ cols) :
    ∃ ed', clamp_cursor ed rows cols = some ed' ∧
      0 ≤ ed'.cursor.cy ∧ ed'.cursor.cy < (ed.buffer.length : Int) ∧
      0 ≤ ed'.cursor.cx ∧
      ed'.cursor.cx ≤ ((ed.buffer.getD ed'.cursor.cy.toNat []).length : Int) ∧
      0 ≤ ed'.cursor.cy - ed'.cursor.rowoff ∧
      ed'.cursor.cy - ed'.cursor.rowoff < rows ∧
      0 ≤ ed'.cursor.cx - ed'.cursor.coloff ∧
      ed'.cursor.cx - ed'.cursor.coloff < cols := by
  obtain ⟨ed', heq, hbuf, h1, h2, h3, h4, h5, h6, h7, h8⟩ :=
    clamp_cursor_post ed rows cols hn hr hc
  exact ⟨ed', heq, h1, h2, h3, h4, h5, h6, h7, h8⟩

/-- Claim C9: `clamp_cursor` is idempotent for a viewport of positive
height and width — running it a second time changes nothing. -/
theorem clamp_cursor_idempotent (ed : Editor) (rows cols : Int)
    (hr : 1 ≤ rows) (hc : 1 ≤ cols) :
    (clamp_cursor ed rows cols).bind (fun e => clamp_cursor e rows cols) =
      clamp_cursor ed rows cols := by
  by_cases hn : 1 ≤ ed.buffer.length
  · obtain ⟨ed', heq, hbuf, h1, h2, h3, h4, h5, h6, h7, h8⟩ :=
      clamp_cursor_post ed rows cols hn hr hc
    rw [heq, Option.some_bind]
    rw [← hbuf] at h2 h4
    exact clamp_cursor_fixed ed' rows cols h1 h2 h3 h4 h5 h6 h7 h8
  · have h0 : ed.buffer.length = 0 := by omega
    have heq : clamp_cursor ed rows cols = none := by
      simp only [clamp_cursor]
      rw [if_pos (by omega : ((ed.buffer.length : Int) = 0))]
    rw [heq]
    rfl

/-- Witness for C1: the state reached from loading `["ab"]` and pressing
Enter at `(0, 0)` still has a non-empty buffer. -/
theorem reachable_num_lines_pos_witness :
    1 ≤ (Editor.mk [[], ['a', 'b']] ⟨0, 1, 0, 0⟩).buffer.length :=
  reachable_num_lines_pos [['a', 'b']] (Editor.mk [[], ['a', 'b']] ⟨0, 1, 0, 0⟩)
    (Reach.step EditStep.newline (Reach.refl (load_file [['a', 'b']])) (by decide))

/-- Witness for C2 at the spec scenario: 20 lines, viewport height 10 and
width 80, cursor moved to row 15. -/
theorem clamp_cursor_bounds_witness :
    ∃ ed', clamp_cursor
        { buffer := List.replicate 20 ['x'], cursor := ⟨0, 15, 0, 0⟩ } 10 80 = some ed' ∧
      0 ≤ ed'.cursor.cy ∧ ed'.cursor.cy < ((List.replicate 20 ['x']).length : Int) ∧
      0 ≤ ed'.cursor.cx ∧
      ed'.cursor.cx ≤ (((List.replicate 20 ['x']).getD ed'.cursor.cy.toNat []).length : Int) ∧
      0 ≤ ed'.cursor.cy - ed'.cursor.rowoff ∧
      ed'.cursor.cy - ed'.cursor.rowoff < 10 ∧
      0 ≤ ed'.cursor.cx - ed'.cursor.coloff ∧
      ed'.cursor.cx - ed'.cursor.coloff < 80 :=
  clamp_cursor_bounds { buffer := List.replicate 20 ['x'], cursor := ⟨0, 15, 0, 0⟩ } 10 80
    (by decide) (by decide) (by decide)

/-- Witness for C9 at a concrete out-of-range state: buffer `["ab"]`,
cursor `(cy, cx) = (-3, 5)` with stale scroll offsets, viewport 2 by 3. -/
theorem clamp_cursor_idempotent_witness :
    (clamp_cursor { buffer := [['a', 'b']], cursor := ⟨5, -3, 7, 2⟩ } 2 3).bind
        (fun e => clamp_cursor e 2 3) =
      clamp_cursor { buffer := [['a', 'b']], cursor := ⟨5, -3, 7, 2⟩ } 2 3 :=
  clamp_cursor_idempotent { buffer := [['a', 'b']], cursor := ⟨5, -3, 7, 2⟩ } 2 3
    (by decide) (by decide)

end TextEditor
